/-
Verification of the transaction-scoped external-call aggregator of the
Observability-newrelic-package repository.

The definitions below are a shallow embedding of the TypeScript sources:
  * the node-fetch call-tracking path (src/unnamed/part_003, the
    node-fetch-tracing module): getTransactionCalls, saveExternalCalls,
    trackedFetch, the cleanup interval;
  * the axios call-tracking path (src/src/axios-external-tracing.ts):
    getTransactionCalls, saveExternalCalls, captureAxiosCall, the cleanup
    interval;
  * the observability service (src/unnamed/part_002): its
    addCustomAttributes wrapper catches every backend failure internally,
    which is modelled by sinkDeliver below;
  * the sensitive-field scrubber (src/src/scrub.ts).

Timestamps are Date.now() values modelled as Nat.  The JS Map is modelled
as an association list with unique keys (Map semantics); Map.set of a new
key appends at the end, which the embedding mirrors.
-/
import Mathlib

/-- One tracked outbound call (interface ExternalCallData in both tracing
modules): url, method, statusCode (0 when no response was produced),
duration in ms, success flag, optional error message. -/
structure ExternalCallData where
  url : String
  method : String
  statusCode : Nat
  duration : Nat
  success : Bool
  error : Option String
deriving Repr, DecidableEq, Inhabited

/-- Per-transaction accumulator (interface TransactionCallData): the list
of tracked calls, the last-access timestamp, and the index of the last
call already saved to the attribute sink (-1 when none was saved yet). -/
structure TransactionCallData where
  calls : List ExternalCallData
  lastAccess : Nat
  lastSavedIndex : Int
deriving Repr, DecidableEq

/-- The externalCallsMap: a JS Map from transaction id to bucket, modelled
as an association list whose keys are unique. -/
abbrev Store := List (String × TransactionCallData)

/-- Map.get / Map.has: first (and, with unique keys, only) entry for a key. -/
def storeFind (s : Store) (txId : String) : Option TransactionCallData :=
  match s with
  | [] => none
  | (k, v) :: rest => if k = txId then some v else storeFind rest txId

/-- In-place mutation of the bucket stored under a key (the JS code mutates
the object returned by Map.get, which is the object held in the map). -/
def storeUpdate : Store → String → (TransactionCallData → TransactionCallData) → Store
  | [], _, _ => []
  | (k, v) :: rest, txId, f =>
    (if k = txId then (k, f v) else (k, v)) :: storeUpdate rest txId f

/-- JS `x || dflt` on an optional string: the default replaces both a
missing value and the empty string (falsy in JS). -/
def jsOrStr (v : Option String) (dflt : String) : String :=
  match v with
  | none => dflt
  | some s => if s = "" then dflt else s

/-- JS truthiness of an optional string value: null/undefined and the
empty string are falsy. -/
def jsTruthyStr (v : Option String) : Option String :=
  match v with
  | none => none
  | some s => if s = "" then none else some s

/-- The bucket created on first touch of a transaction id
(part_003 lines 63-67 / axios-external-tracing.ts lines 65-69):
empty calls, lastAccess = now, lastSavedIndex = -1. -/
def freshBucket (now : Nat) : TransactionCallData :=
  { calls := [], lastAccess := now, lastSavedIndex := -1 }

/-- getTransactionCalls (part_003 lines 56-79, identical in
axios-external-tracing.ts lines 58-81): with no current transaction it
returns an empty list and leaves the map untouched; otherwise it creates
the bucket if absent (Map.set appends a new key), refreshes lastAccess,
and returns the bucket's calls array.  The transaction id delivered by the
tracing backend is passed in as `txOpt` (none when getTransaction()
returns null or throws, both of which yield the empty-list branch). -/
def getTransactionCalls (txOpt : Option String) (now : Nat) (s : Store) :
    List ExternalCallData × Store :=
  match txOpt with
  | none => ([], s)
  | some txId =>
    let s1 := match storeFind s txId with
      | none => s ++ [(txId, freshBucket now)]
      | some _ => s
    match storeFind s1 txId with
    | some d => (d.calls, storeUpdate s1 txId (fun b => { b with lastAccess := now }))
    | none => ([], s1)

/-- One value passed to the attribute sink. -/
inductive AttrValue where
  | str (s : String)
  | num (n : Nat)
  | boolean (b : Bool)
deriving Repr, DecidableEq

/-- One flat attribute map handed to addCustomAttributes. -/
abbrev AttrGroup := List (String × AttrValue)

/-- The attribute group built for call number i (0-based) on the
node-fetch path (part_003 lines 100-113): keys are 1-based
(`external.<i+1>.*`), and the error key is added only for failed calls
with a truthy error string. -/
def fetchCallAttributes (i : Nat) (call : ExternalCallData) : AttrGroup :=
  let pfx := "external." ++ toString (i + 1)
  [ (pfx ++ ".url", AttrValue.str call.url),
    (pfx ++ ".method", AttrValue.str call.method),
    (pfx ++ ".statusCode", AttrValue.num call.statusCode),
    (pfx ++ ".duration.ms", AttrValue.num call.duration),
    (pfx ++ ".success", AttrValue.boolean call.success) ]
  ++ (if call.success = false then
        match jsTruthyStr call.error with
        | some e => [(pfx ++ ".error", AttrValue.str e)]
        | none => []
      else [])

/-- The attribute group built for call number i (0-based) on the axios
path (axios-external-tracing.ts lines 102-111): prefix `externalCall.`,
duration key without the `.ms` suffix, and the error key spread in for any
truthy error string (no success check on this path). -/
def axiosCallAttributes (i : Nat) (call : ExternalCallData) : AttrGroup :=
  let pfx := "externalCall." ++ toString (i + 1)
  [ (pfx ++ ".url", AttrValue.str call.url),
    (pfx ++ ".method", AttrValue.str call.method),
    (pfx ++ ".statusCode", AttrValue.num call.statusCode),
    (pfx ++ ".duration", AttrValue.num call.duration),
    (pfx ++ ".success", AttrValue.boolean call.success) ]
  ++ (match jsTruthyStr call.error with
      | some e => [(pfx ++ ".error", AttrValue.str e)]
      | none => [])

/-- The rollup attribute group of the node-fetch path (part_003 lines
119-126), recomputed over the whole calls array on every save. -/
def summaryAttributes (calls : List ExternalCallData) : AttrGroup :=
  [ ("external.callCount", AttrValue.num calls.length),
    ("external.totalDuration.ms",
      AttrValue.num (calls.foldl (fun sum call => sum + call.duration) 0)),
    ("external.failedCount",
      AttrValue.num (calls.filter (fun call => call.success = false)).length) ]

/-- The emission loop `for (let i = start; i < calls.length; i++)`: one
attribute group per remaining call, indices counting up from `start`.
The caller passes `calls.drop start` together with `start`. -/
def emitFrom (mk : Nat → ExternalCallData → AttrGroup) : Nat → List ExternalCallData → List AttrGroup
  | _, [] => []
  | i, call :: rest => mk i call :: emitFrom mk (i + 1) rest

/-- The outcome of one saveExternalCalls run on the node-fetch path: the
per-call groups passed to the sink, then the rollup group, then the store
after the run. -/
structure FlushResult where
  perCall : List AttrGroup
  summary : Option AttrGroup
  store : Store
deriving Repr, DecidableEq

/-- saveExternalCalls of the node-fetch path (part_003 lines 85-133).
Returns early (nothing emitted, store untouched) when the calls array is
empty, when no transaction is current, or when the map has no bucket for
it.  Otherwise it emits one group per call at index > lastSavedIndex, then
the rollup group, then sets lastSavedIndex to calls.length - 1.  The
for-loop from lastSavedIndex + 1 is rendered with Int.toNat, which agrees
with the source for every reachable bucket (lastSavedIndex ≥ -1, proved
below).  The sink wrapper never throws (part_002 lines 37-47), so the
loop and the index update always run to completion. -/
def saveExternalCalls (calls : List ExternalCallData) (txOpt : Option String) (s : Store) :
    FlushResult :=
  if calls.length = 0 then ⟨[], none, s⟩
  else
    match txOpt with
    | none => ⟨[], none, s⟩
    | some txId =>
      match storeFind s txId with
      | none => ⟨[], none, s⟩
      | some data =>
        let start := (data.lastSavedIndex + 1).toNat
        ⟨emitFrom fetchCallAttributes start (calls.drop start),
         some (summaryAttributes calls),
         storeUpdate s txId (fun d => { d with lastSavedIndex := (calls.length : Int) - 1 })⟩

/-- saveExternalCalls of the axios path (axios-external-tracing.ts lines
86-119): same structure, `externalCall.` groups, and no rollup group. -/
def saveExternalCallsAxios (calls : List ExternalCallData) (txOpt : Option String) (s : Store) :
    List AttrGroup × Store :=
  if calls.length = 0 then ([], s)
  else
    match txOpt with
    | none => ([], s)
    | some txId =>
      match storeFind s txId with
      | none => ([], s)
      | some data =>
        let start := (data.lastSavedIndex + 1).toNat
        (emitFrom axiosCallAttributes start (calls.drop start),
         storeUpdate s txId (fun d => { d with lastSavedIndex := (calls.length : Int) - 1 }))

/-- The effect of a run of addCustomAttributes invocations against the
backend: the wrapper in part_002 (lines 37-47) forwards each group and
swallows any backend failure, so a failing invocation drops its group
without disturbing the caller's control flow.  `sinkOk i` says whether the
i-th invocation of the run reached the backend; the result is the list of
groups actually delivered. -/
def sinkDeliver (sinkOk : Nat → Bool) : Nat → List AttrGroup → List AttrGroup
  | _, [] => []
  | i, g :: rest => (if sinkOk i then [g] else []) ++ sinkDeliver sinkOk (i + 1) rest

/-- The response descriptor surfaced by node-fetch: status, the ok flag,
and the status text. -/
structure FetchResponse where
  status : Nat
  ok : Bool
  statusText : String
deriving Repr, DecidableEq

/-- The ok flag as node-fetch itself computes it (WHATWG fetch:
`ok = status in [200, 300)`); a real response always carries
`ok = nodeFetchOk status`. -/
def nodeFetchOk (status : Nat) : Bool :=
  decide (200 ≤ status) && decide (status < 300)

/-- How the underlying fetch call settled: a response, or a thrown error
carrying a message. -/
inductive FetchOutcome where
  | success (resp : FetchResponse)
  | failure (message : String)

/-- Everything observable about one trackedFetch invocation: the value
returned or re-thrown to the caller, the Call Record built, the attribute
groups passed to the sink, and the store afterwards. -/
structure TrackedFetchResult where
  result : Except String FetchResponse
  record : ExternalCallData
  perCall : List AttrGroup
  summary : Option AttrGroup
  store : Store

/-- The Call Record trackedFetch builds on settle (part_003 lines
188-227): on a response, statusCode/success come from the response and a
`HTTP <status> <statusText or Error>` message is attached for non-ok
responses; on a thrown error, statusCode 0, success false, error =
message.  The method string is stored exactly as supplied. -/
def buildFetchRecord (urlString method : String) (duration : Nat) (outcome : FetchOutcome) :
    ExternalCallData :=
  match outcome with
  | FetchOutcome.success resp =>
      { url := urlString, method := method, statusCode := resp.status,
        duration := duration, success := resp.ok,
        error := if resp.ok then none
          else some ("HTTP " ++ toString resp.status ++ " " ++ jsOrStr (some resp.statusText) "Error") }
  | FetchOutcome.failure msg =>
      { url := urlString, method := method, statusCode := 0,
        duration := duration, success := false, error := some msg }

/-- trackedFetch (part_003 lines 169-238).  The underlying fetch call is a
collaborator, so its settle outcome and the two Date.now() readings are
inputs.  method defaults to GET (JS ||, so the empty string also
defaults).  On either settle path the record is pushed onto the current
transaction's calls array (which lives inside the map, so the push is
written back) and saveExternalCalls runs on that same array; the response
is returned, or the original error re-thrown, unchanged. -/
def trackedFetch (url : String) (methodOpt : Option String) (outcome : FetchOutcome)
    (txOpt : Option String) (startTime endTime : Nat) (s : Store) : TrackedFetchResult :=
  let method := jsOrStr methodOpt "GET"
  let duration := endTime - startTime
  let record := buildFetchRecord url method duration outcome
  let got := getTransactionCalls txOpt endTime s
  let calls := got.1 ++ [record]
  let s2 := match txOpt with
    | none => got.2
    | some txId => storeUpdate got.2 txId (fun d => { d with calls := calls })
  let fr := saveExternalCalls calls txOpt s2
  { result := match outcome with
      | FetchOutcome.success resp => Except.ok resp
      | FetchOutcome.failure msg => Except.error msg,
    record := record, perCall := fr.perCall, summary := fr.summary, store := fr.store }

/-- The slice of the axios request config captureAxiosCall reads: url,
method, and the start time stamped by the request interceptor. -/
structure AxiosConfig where
  url : Option String
  method : Option String
  startTime : Option Nat
deriving Repr, DecidableEq

/-- JS `config.metadata?.startTime || Date.now()`: missing and 0 (falsy)
both fall back to now. -/
def jsOrNowNat (v : Option Nat) (now : Nat) : Nat :=
  match v with
  | none => now
  | some t => if t = 0 then now else t

/-- Everything observable about one captureAxiosCall invocation. -/
structure AxiosCaptureResult where
  record : ExternalCallData
  groups : List AttrGroup
  store : Store

/-- captureAxiosCall (axios-external-tracing.ts lines 208-255): url
defaults to "unknown", method defaults to GET and is uppercased, success
iff statusCode in [200,400), error field spread in only for a truthy
message; then the record is pushed onto the current transaction's calls
array and the axios saveExternalCalls runs on it. -/
def captureAxiosCall (config : AxiosConfig) (statusCode : Nat) (errorMessage : Option String)
    (txOpt : Option String) (now : Nat) (s : Store) : AxiosCaptureResult :=
  let startTime := jsOrNowNat config.startTime now
  let duration := now - startTime
  let url := jsOrStr config.url "unknown"
  let method := (jsOrStr config.method "GET").toUpper
  let record : ExternalCallData :=
    { url := url, method := method, statusCode := statusCode, duration := duration,
      success := decide (200 ≤ statusCode) && decide (statusCode < 400),
      error := jsTruthyStr errorMessage }
  let got := getTransactionCalls txOpt now s
  let calls := got.1 ++ [record]
  let s2 := match txOpt with
    | none => got.2
    | some txId => storeUpdate got.2 txId (fun d => { d with calls := calls })
  let saved := saveExternalCallsAxios calls txOpt s2
  { record := record, groups := saved.1, store := saved.2 }

/-- The eviction TTL: five minutes of milliseconds (both modules). -/
def ttlMillis : Nat := 5 * 60 * 1000

/-- One tick of the cleanup interval (part_003 lines 37-46,
axios-external-tracing.ts lines 39-48): delete every bucket whose
lastAccess is older than now minus the TTL. -/
def cleanupTick (now : Nat) (s : Store) : Store :=
  s.filter (fun kv => !(decide (kv.2.lastAccess < now - ttlMillis)))

/-- A JSON-serializable value, the domain of scrub (src/src/scrub.ts):
the clone produced by JSON.parse(JSON.stringify(·)). -/
inductive Json where
  | null
  | boolean (b : Bool)
  | num (n : Int)
  | str (s : String)
  | arr (elems : List Json)
  | obj (fields : List (String × Json))

/-- Whether a list of characters occurs contiguously inside another
(JS String.prototype.includes on the underlying sequences). -/
def charsHasSub (pat : List Char) : List Char → Bool
  | [] => pat.isEmpty
  | c :: rest => pat.isPrefixOf (c :: rest) || charsHasSub pat rest

/-- JS s.includes(pat). -/
def strContainsSub (s pat : String) : Bool :=
  charsHasSub pat.data s.data

/-- The default redactKeys of scrub. -/
def redactKeysDefault : List String :=
  ["password", "token", "secret", "email", "phone", "otp"]

/-- The default maxLen of scrub. -/
def scrubMaxLen : Nat := 400

/-- scrub's key test: redactKeys.some(rk => k.toLowerCase().includes(rk)). -/
def redactHit (k : String) : Bool :=
  redactKeysDefault.any (fun rk => strContainsSub k.toLower rk)

mutual

/-- The transformation walk applies to one value sitting under a
non-redacted key (scrub.ts lines 12-16): recurse into objects and arrays,
truncate strings longer than maxLen to their first maxLen characters plus
an ellipsis, leave everything else alone.  Walking an array visits its
index keys "0", "1", ...; a decimal-digit key never contains any of the
redact substrings, so array elements are never redacted by key and the
walk reduces to elementwise recursion. -/
def scrubValue : Json → Json
  | Json.obj fields => Json.obj (scrubFields fields)
  | Json.arr elems => Json.arr (scrubElems elems)
  | Json.str s =>
      if s.length > scrubMaxLen then Json.str (s.take scrubMaxLen ++ "…") else Json.str s
  | other => other

/-- walk over the entries of an object (scrub.ts lines 8-17): a key hit by
the redact test has its value replaced by "[REDACTED]" (checked before the
object test, so whole objects are redacted too); otherwise the value is
transformed by scrubValue. -/
def scrubFields : List (String × Json) → List (String × Json)
  | [] => []
  | (k, v) :: rest =>
      (if redactHit k then (k, Json.str "[REDACTED]") else (k, scrubValue v)) :: scrubFields rest

/-- walk over the elements of an array. -/
def scrubElems : List Json → List Json
  | [] => []
  | v :: rest => scrubValue v :: scrubElems rest

end

/-- scrub (scrub.ts lines 1-23) at its default configuration.  The clone
JSON.parse(JSON.stringify(obj ?? {})) is the identity on Json except that
a null input becomes {}; walk then rewrites the clone's entries in place.
walk applied to a non-object non-array clone touches nothing (Object.keys
of a primitive yields no writable entries). -/
def scrub : Json → Json
  | Json.null => Json.obj []
  | Json.obj fields => Json.obj (scrubFields fields)
  | Json.arr elems => Json.arr (scrubElems elems)
  | other => other

/-- Modelled from the claim's words, for comparison with scrub: the key
test of the claim, "any key whose lowercased name contains one of the
substrings password, token, secret, email, phone, otp". -/
def claimRedacted (k : String) : Bool :=
  ["password", "token", "secret", "email", "phone", "otp"].any
    (fun sub => strContainsSub k.toLower sub)

mutual

/-- Modelled from the claim's words: the structurally identical copy in
which, at every nesting depth, the value of any redacted key is replaced
by "[REDACTED]", any string value longer than 400 characters is truncated
to its first 400 characters followed by an ellipsis, and all other values
are unchanged. -/
def claimScrubValue : Json → Json
  | Json.obj fields => Json.obj (claimScrubFields fields)
  | Json.arr elems => Json.arr (claimScrubElems elems)
  | Json.str s =>
      if s.length > 400 then Json.str (s.take 400 ++ "…") else Json.str s
  | other => other

/-- Claim-side transformation of an object's entries. -/
def claimScrubFields : List (String × Json) → List (String × Json)
  | [] => []
  | (k, v) :: rest =>
      (if claimRedacted k then (k, Json.str "[REDACTED]") else (k, claimScrubValue v))
        :: claimScrubFields rest

/-- Claim-side transformation of an array's elements. -/
def claimScrubElems : List Json → List Json
  | [] => []
  | v :: rest => claimScrubValue v :: claimScrubElems rest

end

mutual

/-- The source-side walk and the claim-side description agree on every
value: proof by mutual structural recursion over Json. -/
def scrubValueEq : (v : Json) → scrubValue v = claimScrubValue v
  | Json.null => by simp [scrubValue, claimScrubValue]
  | Json.boolean b => by simp [scrubValue, claimScrubValue]
  | Json.num n => by simp [scrubValue, claimScrubValue]
  | Json.str s => by simp [scrubValue, claimScrubValue, scrubMaxLen]
  | Json.arr elems => by
      rw [show scrubValue (Json.arr elems) = Json.arr (scrubElems elems) by simp [scrubValue]]
      rw [show claimScrubValue (Json.arr elems) = Json.arr (claimScrubElems elems) by
            simp [claimScrubValue]]
      rw [scrubElemsEq elems]
  | Json.obj fields => by
      rw [show scrubValue (Json.obj fields) = Json.obj (scrubFields fields) by simp [scrubValue]]
      rw [show claimScrubValue (Json.obj fields) = Json.obj (claimScrubFields fields) by
            simp [claimScrubValue]]
      rw [scrubFieldsEq fields]

/-- Field lists: the redact tests coincide and the tails agree. -/
def scrubFieldsEq : (fs : List (String × Json)) → scrubFields fs = claimScrubFields fs
  | [] => by simp [scrubFields, claimScrubFields]
  | (k, v) :: rest => by
      rw [show scrubFields ((k, v) :: rest)
            = (if redactHit k then (k, Json.str "[REDACTED]") else (k, scrubValue v))
                :: scrubFields rest
          by simp [scrubFields]]
      rw [show claimScrubFields ((k, v) :: rest)
            = (if claimRedacted k then (k, Json.str "[REDACTED]") else (k, claimScrubValue v))
                :: claimScrubFields rest
          by simp [claimScrubFields]]
      rw [scrubValueEq v, scrubFieldsEq rest]
      rfl

/-- Element lists agree pointwise. -/
def scrubElemsEq : (l : List Json) → scrubElems l = claimScrubElems l
  | [] => by simp [scrubElems, claimScrubElems]
  | v :: rest => by
      rw [show scrubElems (v :: rest) = scrubValue v :: scrubElems rest by simp [scrubElems]]
      rw [show claimScrubElems (v :: rest) = claimScrubValue v :: claimScrubElems rest by
            simp [claimScrubElems]]
      rw [scrubValueEq v, scrubElemsEq rest]

end

/-- The bucket invariant claimed in the spec: lastSavedIndex starts at -1
and always stays strictly below the number of accumulated calls. -/
def bucketInv (b : TransactionCallData) : Prop :=
  -1 ≤ b.lastSavedIndex ∧ b.lastSavedIndex < (b.calls.length : Int)

/-- Everything one node-fetch flush hands to addCustomAttributes: the
per-call groups followed by the rollup group (when one is emitted). -/
def emittedGroups (fr : FlushResult) : List AttrGroup :=
  fr.perCall ++ (match fr.summary with | some g => [g] | none => [])

/-- A sample successful call record, used by concrete witnesses. -/
def sampleOk : ExternalCallData :=
  { url := "https://a.test/1", method := "GET", statusCode := 200,
    duration := 50, success := true, error := none }

/-- A sample failed call record, used by concrete witnesses. -/
def sampleFail : ExternalCallData :=
  { url := "https://a.test/2", method := "GET", statusCode := 500,
    duration := 30, success := false, error := some "HTTP 500 Internal Server Error" }

theorem mem_keys_of_find_some (s : Store) (k : String) (v : TransactionCallData)
    (h : storeFind s k = some v) : k ∈ s.map Prod.fst := by
  induction s with
  | nil => simp [storeFind] at h
  | cons kv rest ih =>
    obtain ⟨a, b⟩ := kv
    simp only [List.map_cons]
    by_cases hk : a = k
    · subst hk
      exact List.mem_cons_self _ _
    · simp [storeFind, hk] at h
      exact List.mem_cons_of_mem _ (ih h)

theorem find_update_self (s : Store) (tx : String) (f : TransactionCallData → TransactionCallData) :
    storeFind (storeUpdate s tx f) tx = (storeFind s tx).map f := by
  induction s with
  | nil => rfl
  | cons kv rest ih =>
    obtain ⟨a, b⟩ := kv
    rw [storeUpdate]
    by_cases h : a = tx
    · subst h
      rw [if_pos rfl, storeFind, if_pos rfl, storeFind, if_pos rfl]
      rfl
    · rw [if_neg h, storeFind, if_neg h, storeFind, if_neg h]
      exact ih

theorem find_update_ne (s : Store) (tx k : String) (f : TransactionCallData → TransactionCallData)
    (hne : k ≠ tx) : storeFind (storeUpdate s tx f) k = storeFind s k := by
  induction s with
  | nil => rfl
  | cons kv rest ih =>
    obtain ⟨a, b⟩ := kv
    rw [storeUpdate]
    by_cases h : a = tx
    · subst h
      have hk : a ≠ k := fun hh => hne hh.symm
      rw [if_pos rfl, storeFind, if_neg hk, storeFind, if_neg hk]
      exact ih
    · by_cases h2 : a = k
      · subst h2
        rw [if_neg h, storeFind, if_pos rfl, storeFind, if_pos rfl]
      · rw [if_neg h, storeFind, if_neg h2, storeFind, if_neg h2]
        exact ih

theorem find_append_some (s l : Store) (k : String) (v : TransactionCallData)
    (h : storeFind s k = some v) : storeFind (s ++ l) k = some v := by
  induction s with
  | nil => simp [storeFind] at h
  | cons kv rest ih =>
    obtain ⟨a, b⟩ := kv
    by_cases hk : a = k
    · simp [storeFind, hk] at h ⊢
      exact h
    · simp [storeFind, hk] at h ⊢
      exact ih h

theorem find_append_fresh (s : Store) (k : String) (v : TransactionCallData)
    (h : storeFind s k = none) : storeFind (s ++ [(k, v)]) k = some v := by
  induction s with
  | nil => simp [storeFind]
  | cons kv rest ih =>
    obtain ⟨a, b⟩ := kv
    by_cases hk : a = k
    · simp [storeFind, hk] at h
    · simp [storeFind, hk] at h ⊢
      exact ih h

theorem update_update_same (s : Store) (tx : String)
    (f g : TransactionCallData → TransactionCallData) :
    storeUpdate (storeUpdate s tx f) tx g = storeUpdate s tx (fun b => g (f b)) := by
  induction s with
  | nil => rfl
  | cons kv rest ih =>
    obtain ⟨a, b⟩ := kv
    rw [storeUpdate]
    by_cases h : a = tx
    · subst h
      rw [if_pos rfl, storeUpdate, if_pos rfl, storeUpdate, if_pos rfl, ih]
    · rw [if_neg h, storeUpdate, if_neg h, storeUpdate, if_neg h, ih]

theorem find_filter_of_none (s : Store) (k : String) (p : String × TransactionCallData → Bool)
    (h : storeFind s k = none) : storeFind (s.filter p) k = none := by
  induction s with
  | nil => rfl
  | cons kv rest ih =>
    obtain ⟨a, b⟩ := kv
    by_cases hk : a = k
    · simp [storeFind, hk] at h
    · simp [storeFind, hk] at h
      by_cases hp : p (a, b) = true
      · simp [List.filter_cons, hp, storeFind, hk]
        exact ih h
      · simp only [Bool.not_eq_true] at hp
        simp [List.filter_cons, hp]
        exact ih h

theorem find_filter_kept (s : Store) (k : String) (v : TransactionCallData)
    (p : String × TransactionCallData → Bool)
    (h : storeFind s k = some v) (hp : p (k, v) = true) :
    storeFind (s.filter p) k = some v := by
  induction s with
  | nil => simp [storeFind] at h
  | cons kv rest ih =>
    obtain ⟨a, b⟩ := kv
    by_cases hk : a = k
    · subst hk
      simp [storeFind] at h
      subst h
      simp [List.filter_cons, hp, storeFind]
    · simp [storeFind, hk] at h
      by_cases hpk : p (a, b) = true
      · simp [List.filter_cons, hpk, storeFind, hk]
        exact ih h
      · simp only [Bool.not_eq_true] at hpk
        simp [List.filter_cons, hpk]
        exact ih h

theorem find_filter_dropped (s : Store) (k : String) (v : TransactionCallData)
    (p : String × TransactionCallData → Bool)
    (hnd : (s.map Prod.fst).Nodup)
    (h : storeFind s k = some v) (hp : p (k, v) = false) :
    storeFind (s.filter p) k = none := by
  induction s with
  | nil => simp [storeFind] at h
  | cons kv rest ih =>
    obtain ⟨a, b⟩ := kv
    simp only [List.map_cons, List.nodup_cons] at hnd
    by_cases hk : a = k
    · subst hk
      simp [storeFind] at h
      subst h
      simp [List.filter_cons, hp]
      apply find_filter_of_none
      cases hfind : storeFind rest a with
      | none => rfl
      | some w => exact absurd (mem_keys_of_find_some rest a w hfind) hnd.1
    · simp [storeFind, hk] at h
      by_cases hpk : p (a, b) = true
      · simp [List.filter_cons, hpk, storeFind, hk]
        exact ih hnd.2 h
      · simp only [Bool.not_eq_true] at hpk
        simp [List.filter_cons, hpk]
        exact ih hnd.2 h

theorem emitFrom_length (mk : Nat → ExternalCallData → AttrGroup) (i : Nat)
    (l : List ExternalCallData) : (emitFrom mk i l).length = l.length := by
  induction l generalizing i with
  | nil => rfl
  | cons c rest ih => simp [emitFrom, ih]

theorem emitFrom_getD (mk : Nat → ExternalCallData → AttrGroup) (i j : Nat)
    (l : List ExternalCallData) (hj : j < l.length) :
    (emitFrom mk i l).getD j [] = mk (i + j) (l.getD j default) := by
  induction l generalizing i j with
  | nil => simp at hj
  | cons c rest ih =>
    cases j with
    | zero => simp [emitFrom]
    | succ j2 =>
      simp only [emitFrom, List.getD_cons_succ]
      rw [ih (i + 1) j2 (by simpa using hj)]
      congr 1
      omega

theorem sinkDeliver_sublist (sinkOk : Nat → Bool) (i : Nat) (groups : List AttrGroup) :
    List.Sublist (sinkDeliver sinkOk i groups) groups := by
  induction groups generalizing i with
  | nil => simp [sinkDeliver]
  | cons g rest ih =>
    by_cases h : sinkOk i = true
    · simpa [sinkDeliver, h] using List.Sublist.cons₂ g (ih (i + 1))
    · simp only [Bool.not_eq_true] at h
      simpa [sinkDeliver, h] using List.Sublist.cons g (ih (i + 1))

theorem getTransactionCalls_found (tx : String) (now : Nat) (s : Store)
    (b : TransactionCallData) (h : storeFind s tx = some b) :
    getTransactionCalls (some tx) now s
      = (b.calls, storeUpdate s tx (fun d => { d with lastAccess := now })) := by
  simp [getTransactionCalls, h]

theorem getTransactionCalls_fresh (tx : String) (now : Nat) (s : Store)
    (h : storeFind s tx = none) :
    getTransactionCalls (some tx) now s
      = ([], storeUpdate (s ++ [(tx, freshBucket now)]) tx
          (fun d => { d with lastAccess := now })) := by
  have h2 : storeFind (s ++ [(tx, freshBucket now)]) tx = some (freshBucket now) :=
    find_append_fresh s tx _ h
  simp only [getTransactionCalls, h, h2]
  simp [freshBucket]

theorem saveExternalCalls_found (calls : List ExternalCallData) (tx : String) (s : Store)
    (d : TransactionCallData) (hne : calls ≠ []) (h : storeFind s tx = some d) :
    saveExternalCalls calls (some tx) s
      = ⟨emitFrom fetchCallAttributes (d.lastSavedIndex + 1).toNat
            (calls.drop (d.lastSavedIndex + 1).toNat),
         some (summaryAttributes calls),
         storeUpdate s tx (fun b => { b with lastSavedIndex := (calls.length : Int) - 1 })⟩ := by
  have hlen : ¬ calls.length = 0 := by simpa [List.length_eq_zero] using hne
  simp [saveExternalCalls, h, hlen]

theorem saveExternalCallsAxios_found (calls : List ExternalCallData) (tx : String) (s : Store)
    (d : TransactionCallData) (hne : calls ≠ []) (h : storeFind s tx = some d) :
    saveExternalCallsAxios calls (some tx) s
      = (emitFrom axiosCallAttributes (d.lastSavedIndex + 1).toNat
            (calls.drop (d.lastSavedIndex + 1).toNat),
         storeUpdate s tx (fun b => { b with lastSavedIndex := (calls.length : Int) - 1 })) := by
  have hlen : ¬ calls.length = 0 := by simpa [List.length_eq_zero] using hne
  simp [saveExternalCallsAxios, h, hlen]

/-- C1: after a bucket holding k calls has been fully flushed
(lastSavedIndex = k - 1) and m more records are appended to its calls
array, the next flush emits exactly m per-record attribute groups, one for
each appended record at indices k..k+m-1 carrying the 1-based positional
name k+1..k+m (fetchCallAttributes / axiosCallAttributes at those
indices), and no group for any index already flushed; on both
call-tracking paths. -/
theorem c1_flush_emits_exactly_new_records
    (s : Store) (tx : String) (la : Nat) (k : Nat)
    (old new : List ExternalCallData)
    (hfind : storeFind s tx = some ⟨old, la, (k : Int) - 1⟩)
    (hk : old.length = k) :
    ((saveExternalCalls (old ++ new) (some tx) s).perCall.length = new.length
      ∧ ∀ j, j < new.length →
          (saveExternalCalls (old ++ new) (some tx) s).perCall.getD j []
            = fetchCallAttributes (k + j) (new.getD j default))
    ∧ ((saveExternalCallsAxios (old ++ new) (some tx) s).1.length = new.length
      ∧ ∀ j, j < new.length →
          (saveExternalCallsAxios (old ++ new) (some tx) s).1.getD j []
            = axiosCallAttributes (k + j) (new.getD j default)) := by
  by_cases hemp : old ++ new = []
  · obtain ⟨ho, hn⟩ := List.append_eq_nil.mp hemp
    subst ho
    subst hn
    simp [saveExternalCalls, saveExternalCallsAxios]
  · have hstart : (((k : Int) - 1) + 1).toNat = k := by omega
    have hdrop : (old ++ new).drop k = new := by
      rw [← hk]
      exact List.drop_left old new
    have h1 := saveExternalCalls_found (old ++ new) tx s _ hemp hfind
    have h2 := saveExternalCallsAxios_found (old ++ new) tx s _ hemp hfind
    rw [h1, h2]
    simp only [hstart, hdrop]
    exact ⟨⟨emitFrom_length _ _ _, fun j hj => emitFrom_getD _ _ _ _ hj⟩,
           ⟨emitFrom_length _ _ _, fun j hj => emitFrom_getD _ _ _ _ hj⟩⟩

/-- Witness for C1: a bucket with one already-flushed record, two records
appended, inspected at concrete positions. -/
theorem c1_witness :
    (saveExternalCalls ([sampleOk] ++ [sampleFail, sampleOk]) (some "t")
        [("t", TransactionCallData.mk [sampleOk] 5 ((1 : Int) - 1))]).perCall.length = 2
    ∧ (saveExternalCalls ([sampleOk] ++ [sampleFail, sampleOk]) (some "t")
        [("t", TransactionCallData.mk [sampleOk] 5 ((1 : Int) - 1))]).perCall.getD 0 []
        = fetchCallAttributes (1 + 0) sampleFail
    ∧ (saveExternalCallsAxios ([sampleOk] ++ [sampleFail, sampleOk]) (some "t")
        [("t", TransactionCallData.mk [sampleOk] 5 ((1 : Int) - 1))]).1.getD 1 []
        = axiosCallAttributes (1 + 1) sampleOk :=
  ⟨(c1_flush_emits_exactly_new_records _ "t" 5 1 [sampleOk] [sampleFail, sampleOk]
      (by decide) rfl).1.1,
   (c1_flush_emits_exactly_new_records _ "t" 5 1 [sampleOk] [sampleFail, sampleOk]
      (by decide) rfl).1.2 0 (by decide),
   (c1_flush_emits_exactly_new_records _ "t" 5 1 [sampleOk] [sampleFail, sampleOk]
      (by decide) rfl).2.2 1 (by decide)⟩

/-- C4: with no transaction id available, a tracked call still returns (or
re-throws) the underlying outcome unchanged, the store gains no bucket (it
is left exactly as it was), and nothing is passed to the attribute sink;
on both call-tracking paths. -/
theorem c4_no_transaction_is_transparent_noop
    (url : String) (methodOpt : Option String) (outcome : FetchOutcome)
    (t0 t1 : Nat) (s : Store)
    (cfg : AxiosConfig) (st : Nat) (em : Option String) (now : Nat) (s2 : Store) :
    ((trackedFetch url methodOpt outcome none t0 t1 s).store = s
      ∧ (trackedFetch url methodOpt outcome none t0 t1 s).perCall = []
      ∧ (trackedFetch url methodOpt outcome none t0 t1 s).summary = none
      ∧ (trackedFetch url methodOpt outcome none t0 t1 s).result
          = (match outcome with
             | FetchOutcome.success resp => Except.ok resp
             | FetchOutcome.failure msg => Except.error msg))
    ∧ ((captureAxiosCall cfg st em none now s2).store = s2
      ∧ (captureAxiosCall cfg st em none now s2).groups = []) := by
  refine ⟨⟨?_, ?_, ?_, rfl⟩, ?_, ?_⟩ <;>
    simp [trackedFetch, captureAxiosCall, getTransactionCalls, saveExternalCalls,
      saveExternalCallsAxios]

/-- C3 counterexample: a 301 response (whose fetch ok flag is false, as
node-fetch computes it) tracked through trackedFetch yields a record with
success = false although its status code lies in [200, 400), refuting the
claim that success ↔ statusCode ∈ [200, 400) holds on both paths. -/
theorem c3_counterexample :
    (trackedFetch "https://a.test/r" none
        (FetchOutcome.success
          { status := 301, ok := nodeFetchOk 301, statusText := "Moved Permanently" })
        (some "tx1") 0 20 [("tx1", freshBucket 0)]).record.success = false
    ∧ 200 ≤ (trackedFetch "https://a.test/r" none
        (FetchOutcome.success
          { status := 301, ok := nodeFetchOk 301, statusText := "Moved Permanently" })
        (some "tx1") 0 20 [("tx1", freshBucket 0)]).record.statusCode
    ∧ (trackedFetch "https://a.test/r" none
        (FetchOutcome.success
          { status := 301, ok := nodeFetchOk 301, statusText := "Moved Permanently" })
        (some "tx1") 0 20 [("tx1", freshBucket 0)]).record.statusCode < 400 := by
  refine ⟨?_, ?_, ?_⟩ <;> decide

/-- C3 as amended: on the axios interceptor path success is exactly
statusCode ∈ [200, 400); on the trackedFetch path success is the
response's ok flag, which under fetch semantics (nodeFetchOk) means
statusCode ∈ [200, 300), so 3xx responses are recorded as failures
there. -/
theorem c3_amended_success_criteria
    (cfg : AxiosConfig) (st : Nat) (em : Option String) (txOpt : Option String)
    (now : Nat) (s : Store)
    (url : String) (methodOpt : Option String) (resp : FetchResponse)
    (txOpt2 : Option String) (t0 t1 : Nat) (s2 : Store) :
    (captureAxiosCall cfg st em txOpt now s).record.success
        = (decide (200 ≤ st) && decide (st < 400))
    ∧ (trackedFetch url methodOpt (FetchOutcome.success resp) txOpt2 t0 t1 s2).record.success
        = resp.ok
    ∧ nodeFetchOk resp.status = (decide (200 ≤ resp.status) && decide (resp.status < 300)) := by
  refine ⟨?_, ?_, rfl⟩ <;> simp [captureAxiosCall, trackedFetch, buildFetchRecord]

/-- C9 counterexample: trackedFetch stores the supplied method verbatim;
tracking with method "post" yields a record whose method is "post", not
"POST", refuting uppercasing on that path. -/
theorem c9_counterexample :
    (trackedFetch "https://a.test/r" (some "post")
        (FetchOutcome.success { status := 200, ok := nodeFetchOk 200, statusText := "OK" })
        (some "tx1") 0 20 [("tx1", freshBucket 0)]).record.method = "post"
    ∧ "post" ≠ "POST" := by
  refine ⟨?_, ?_⟩ <;> decide

/-- C9 as amended: the axios path uppercases the configured method and
defaults missing (or empty, JS-falsy) methods to GET; the trackedFetch
path applies the same GET default but stores the method string exactly as
supplied, without uppercasing. -/
theorem c9_amended_method_handling
    (cfg : AxiosConfig) (st : Nat) (em : Option String) (txOpt : Option String)
    (now : Nat) (s : Store)
    (url : String) (methodOpt : Option String) (outcome : FetchOutcome)
    (txOpt2 : Option String) (t0 t1 : Nat) (s2 : Store) :
    (captureAxiosCall cfg st em txOpt now s).record.method = (jsOrStr cfg.method "GET").toUpper
    ∧ (trackedFetch url methodOpt outcome txOpt2 t0 t1 s2).record.method
        = jsOrStr methodOpt "GET"
    ∧ jsOrStr none "GET" = "GET" := by
  refine ⟨?_, ?_, rfl⟩
  · simp [captureAxiosCall]
  · cases outcome <;> simp [trackedFetch, buildFetchRecord]

theorem find_save_after_update (calls : List ExternalCallData) (tx : String) (s0 : Store)
    (F : TransactionCallData → TransactionCallData) (b : TransactionCallData)
    (h : storeFind s0 tx = some b) (hne : calls ≠ []) :
    storeFind (saveExternalCalls calls (some tx) (storeUpdate s0 tx F)).store tx
      = some { F b with lastSavedIndex := (calls.length : Int) - 1 } := by
  have hf : storeFind (storeUpdate s0 tx F) tx = some (F b) := by
    rw [find_update_self, h]
    rfl
  rw [saveExternalCalls_found calls tx _ (F b) hne hf]
  rw [update_update_same, find_update_self, h]
  rfl

theorem trackedFetch_find_found (url : String) (methodOpt : Option String)
    (outcome : FetchOutcome) (tx : String) (t0 t1 : Nat) (s : Store)
    (b : TransactionCallData) (h : storeFind s tx = some b) :
    storeFind (trackedFetch url methodOpt outcome (some tx) t0 t1 s).store tx
      = some (TransactionCallData.mk
          (b.calls ++ [buildFetchRecord url (jsOrStr methodOpt "GET") (t1 - t0) outcome])
          t1
          (((b.calls
              ++ [buildFetchRecord url (jsOrStr methodOpt "GET") (t1 - t0) outcome]).length
            : Int) - 1)) := by
  have hgot := getTransactionCalls_found tx t1 s b h
  simp only [trackedFetch, hgot]
  rw [update_update_same]
  rw [find_save_after_update _ tx s _ b h (by simp)]

/-- C2: when the underlying fetch call throws, trackedFetch appends
exactly one failed record to the current transaction's bucket — statusCode
0 (no response was produced), success false, error equal to the thrown
message — and re-surfaces the original error unchanged to its caller. -/
theorem c2_failed_call_recorded_and_rethrown
    (url : String) (methodOpt : Option String) (msg : String) (tx : String)
    (t0 t1 : Nat) (s : Store) (b : TransactionCallData)
    (h : storeFind s tx = some b) :
    (trackedFetch url methodOpt (FetchOutcome.failure msg) (some tx) t0 t1 s).result
        = Except.error msg
    ∧ (trackedFetch url methodOpt (FetchOutcome.failure msg) (some tx) t0 t1 s).record
        = { url := url, method := jsOrStr methodOpt "GET", statusCode := 0,
            duration := t1 - t0, success := false, error := some msg }
    ∧ storeFind (trackedFetch url methodOpt (FetchOutcome.failure msg) (some tx) t0 t1 s).store tx
        = some { calls := b.calls
                  ++ [{ url := url, method := jsOrStr methodOpt "GET", statusCode := 0,
                        duration := t1 - t0, success := false, error := some msg }],
                 lastAccess := t1,
                 lastSavedIndex := (b.calls.length : Int) } := by
  refine ⟨rfl, rfl, ?_⟩
  rw [trackedFetch_find_found url methodOpt (FetchOutcome.failure msg) tx t0 t1 s b h]
  simp only [buildFetchRecord, TransactionCallData.mk.injEq, Option.some.injEq]
  refine ⟨trivial, trivial, ?_⟩
  simp only [List.length_append, List.length_cons, List.length_nil]
  omega

/-- Witness for C2: a failing fetch against a bucket that already holds
one record. -/
theorem c2_witness :
    (trackedFetch "https://a.test/x" none (FetchOutcome.failure "boom") (some "tx1") 3 10
        [("tx1", TransactionCallData.mk [sampleOk] 2 0)]).result = Except.error "boom"
    ∧ (trackedFetch "https://a.test/x" none (FetchOutcome.failure "boom") (some "tx1") 3 10
        [("tx1", TransactionCallData.mk [sampleOk] 2 0)]).record
        = { url := "https://a.test/x", method := jsOrStr none "GET", statusCode := 0,
            duration := 10 - 3, success := false, error := some "boom" }
    ∧ storeFind (trackedFetch "https://a.test/x" none (FetchOutcome.failure "boom") (some "tx1")
          3 10 [("tx1", TransactionCallData.mk [sampleOk] 2 0)]).store "tx1"
        = some { calls := [sampleOk]
                  ++ [{ url := "https://a.test/x", method := jsOrStr none "GET", statusCode := 0,
                        duration := 10 - 3, success := false, error := some "boom" }],
                 lastAccess := 10,
                 lastSavedIndex := (([sampleOk] : List ExternalCallData).length : Int) } :=
  c2_failed_call_recorded_and_rethrown "https://a.test/x" none "boom" "tx1" 3 10
    [("tx1", TransactionCallData.mk [sampleOk] 2 0)] (TransactionCallData.mk [sampleOk] 2 0)
    (by decide)

/-- C5: lastSavedIndex starts at -1 on a fresh bucket and always stays
strictly below the length of the calls sequence; appending a record
preserves the invariant and only appends; a flush leaves the calls and
lastAccess untouched, never decreases lastSavedIndex, and preserves the
invariant; getTransactionCalls never changes calls or lastSavedIndex of
an existing bucket. -/
theorem c5_lastSavedIndex_invariant :
    (∀ t : Nat, (freshBucket t).lastSavedIndex = -1 ∧ bucketInv (freshBucket t))
    ∧ (∀ (b : TransactionCallData) (c : ExternalCallData),
        bucketInv b →
        bucketInv { b with calls := b.calls ++ [c] }
          ∧ ({ b with calls := b.calls ++ [c] } : TransactionCallData).calls = b.calls ++ [c])
    ∧ (∀ (s : Store) (tx : String) (b : TransactionCallData),
        storeFind s tx = some b → bucketInv b →
        ∃ b2, storeFind (saveExternalCalls b.calls (some tx) s).store tx = some b2
          ∧ b2.calls = b.calls
          ∧ b2.lastAccess = b.lastAccess
          ∧ b.lastSavedIndex ≤ b2.lastSavedIndex
          ∧ bucketInv b2)
    ∧ (∀ (tx : String) (now : Nat) (s : Store) (b : TransactionCallData),
        storeFind s tx = some b →
        ∃ b2, storeFind (getTransactionCalls (some tx) now s).2 tx = some b2
          ∧ b2.calls = b.calls ∧ b2.lastSavedIndex = b.lastSavedIndex) := by
  refine ⟨?_, ?_, ?_, ?_⟩
  · intro t
    exact ⟨rfl, by simp [freshBucket, bucketInv]⟩
  · intro b c hb
    refine ⟨?_, rfl⟩
    obtain ⟨h1, h2⟩ := hb
    refine ⟨h1, ?_⟩
    simp only [List.length_append, List.length_cons, List.length_nil]
    omega
  · intro s tx b hfind hb
    by_cases hc : b.calls = []
    · refine ⟨b, ?_, rfl, rfl, le_refl _, hb⟩
      simp [saveExternalCalls, hc, hfind]
    · rw [saveExternalCalls_found b.calls tx s b hc hfind]
      refine ⟨{ b with lastSavedIndex := (b.calls.length : Int) - 1 }, ?_, rfl, rfl, ?_, ?_⟩
      · rw [find_update_self, hfind]
        rfl
      · obtain ⟨h1, h2⟩ := hb
        simp only []
        omega
      · have hpos : 0 < b.calls.length := List.length_pos.mpr hc
        refine ⟨?_, ?_⟩ <;> simp only [] <;> omega
  · intro tx now s b hfind
    rw [getTransactionCalls_found tx now s b hfind]
    refine ⟨{ b with lastAccess := now }, ?_, rfl, rfl⟩
    rw [find_update_self, hfind]
    rfl

/-- Witness for C5: a fresh bucket, and a flush of a one-record bucket. -/
theorem c5_witness :
    ((freshBucket 0).lastSavedIndex = -1 ∧ bucketInv (freshBucket 0))
    ∧ ∃ b2, storeFind (saveExternalCalls (TransactionCallData.mk [sampleOk] 5 (-1)).calls
          (some "t") [("t", TransactionCallData.mk [sampleOk] 5 (-1))]).store "t" = some b2
        ∧ b2.calls = (TransactionCallData.mk [sampleOk] 5 (-1)).calls
        ∧ b2.lastAccess = (TransactionCallData.mk [sampleOk] 5 (-1)).lastAccess
        ∧ (TransactionCallData.mk [sampleOk] 5 (-1)).lastSavedIndex ≤ b2.lastSavedIndex
        ∧ bucketInv b2 :=
  ⟨c5_lastSavedIndex_invariant.1 0,
   c5_lastSavedIndex_invariant.2.2.1 [("t", TransactionCallData.mk [sampleOk] 5 (-1))] "t"
     (TransactionCallData.mk [sampleOk] 5 (-1)) (by decide) (by constructor <;> decide)⟩

/-- C6: a flush of a non-empty bucket advances lastSavedIndex to
calls.length - 1 regardless of how the sink behaves (the service wrapper
swallows every sink failure, so delivery cannot alter aggregator state):
whatever subset of the attempted groups the sink actually delivers
(sinkDeliver), the delivered groups are a subsequence of the attempted
ones, and a later flush with no new records re-attempts nothing, so
records whose emission failed are dropped, never retried. -/
theorem c6_flush_advances_index_even_on_sink_failure
    (s : Store) (tx : String) (b : TransactionCallData) (sinkOk : Nat → Bool)
    (hfind : storeFind s tx = some b) (hne : b.calls ≠ []) :
    (∃ b2, storeFind (saveExternalCalls b.calls (some tx) s).store tx = some b2
        ∧ b2.lastSavedIndex = (b.calls.length : Int) - 1)
    ∧ List.Sublist (sinkDeliver sinkOk 0 (saveExternalCalls b.calls (some tx) s).perCall)
        (saveExternalCalls b.calls (some tx) s).perCall
    ∧ (saveExternalCalls b.calls (some tx)
        (saveExternalCalls b.calls (some tx) s).store).perCall = [] := by
  have h1 := saveExternalCalls_found b.calls tx s b hne hfind
  refine ⟨?_, sinkDeliver_sublist sinkOk 0 _, ?_⟩
  · rw [h1]
    refine ⟨{ b with lastSavedIndex := (b.calls.length : Int) - 1 }, ?_, rfl⟩
    rw [find_update_self, hfind]
    rfl
  · rw [h1]
    have hfind2 : storeFind
        (storeUpdate s tx (fun d => { d with lastSavedIndex := (b.calls.length : Int) - 1 })) tx
        = some { b with lastSavedIndex := (b.calls.length : Int) - 1 } := by
      rw [find_update_self, hfind]
      rfl
    rw [saveExternalCalls_found b.calls tx _ _ hne hfind2]
    have hlen : (((b.calls.length : Int) - 1) + 1).toNat = b.calls.length := by omega
    simp only [hlen, List.drop_length]
    rfl

/-- Witness for C6: a two-record bucket flushed against a sink that fails
every delivery. -/
theorem c6_witness :
    (∃ b2, storeFind (saveExternalCalls
          (TransactionCallData.mk [sampleOk, sampleFail] 9 (-1)).calls (some "t")
          [("t", TransactionCallData.mk [sampleOk, sampleFail] 9 (-1))]).store "t" = some b2
        ∧ b2.lastSavedIndex
            = ((TransactionCallData.mk [sampleOk, sampleFail] 9 (-1)).calls.length : Int) - 1)
    ∧ List.Sublist (sinkDeliver (fun _ => false) 0
        (saveExternalCalls (TransactionCallData.mk [sampleOk, sampleFail] 9 (-1)).calls
          (some "t")
          [("t", TransactionCallData.mk [sampleOk, sampleFail] 9 (-1))]).perCall)
        (saveExternalCalls (TransactionCallData.mk [sampleOk, sampleFail] 9 (-1)).calls
          (some "t")
          [("t", TransactionCallData.mk [sampleOk, sampleFail] 9 (-1))]).perCall
    ∧ (saveExternalCalls (TransactionCallData.mk [sampleOk, sampleFail] 9 (-1)).calls (some "t")
        (saveExternalCalls (TransactionCallData.mk [sampleOk, sampleFail] 9 (-1)).calls
          (some "t")
          [("t", TransactionCallData.mk [sampleOk, sampleFail] 9 (-1))]).store).perCall = [] :=
  c6_flush_advances_index_even_on_sink_failure
    [("t", TransactionCallData.mk [sampleOk, sampleFail] 9 (-1))] "t"
    (TransactionCallData.mk [sampleOk, sampleFail] 9 (-1)) (fun _ => false)
    (by decide) (by decide)

/-- C7 counterexample: on the node-fetch path, flushing an already
fully-flushed non-empty bucket is not silent: the second flush still
passes the rollup group to the sink, so it does not "emit no attributes
at all". -/
theorem c7_counterexample :
    emittedGroups (saveExternalCalls [sampleOk] (some "tx1")
        (saveExternalCalls [sampleOk] (some "tx1")
          [("tx1", TransactionCallData.mk [sampleOk] 0 (-1))]).store)
      = [summaryAttributes [sampleOk]]
    ∧ emittedGroups (saveExternalCalls [sampleOk] (some "tx1")
        (saveExternalCalls [sampleOk] (some "tx1")
          [("tx1", TransactionCallData.mk [sampleOk] 0 (-1))]).store)
      ≠ ([] : List AttrGroup) := by
  refine ⟨?_, ?_⟩ <;> decide

/-- C7 as amended: the second of two back-to-back flushes emits no
per-record attribute groups and leaves the whole bucket state (and store)
unchanged; on the axios path it passes nothing at all to the sink, while
on the node-fetch path it re-emits exactly the three rollup attributes
(external.callCount, external.totalDuration.ms, external.failedCount), an
idempotent overwrite recomputed over the same calls. -/
theorem c7_amended_second_flush_no_per_record_groups
    (s : Store) (tx : String) (b : TransactionCallData)
    (hfind : storeFind s tx = some b) :
    (saveExternalCalls b.calls (some tx)
        (saveExternalCalls b.calls (some tx) s).store).perCall = []
    ∧ (saveExternalCalls b.calls (some tx)
        (saveExternalCalls b.calls (some tx) s).store).store
        = (saveExternalCalls b.calls (some tx) s).store
    ∧ (b.calls ≠ [] →
        (saveExternalCalls b.calls (some tx)
          (saveExternalCalls b.calls (some tx) s).store).summary
          = some (summaryAttributes b.calls))
    ∧ (summaryAttributes b.calls).map Prod.fst
        = ["external.callCount", "external.totalDuration.ms", "external.failedCount"]
    ∧ (saveExternalCallsAxios b.calls (some tx)
        (saveExternalCallsAxios b.calls (some tx) s).2).1 = []
    ∧ (saveExternalCallsAxios b.calls (some tx)
        (saveExternalCallsAxios b.calls (some tx) s).2).2
        = (saveExternalCallsAxios b.calls (some tx) s).2 := by
  by_cases hc : b.calls = []
  · rw [hc]
    simp [saveExternalCalls, saveExternalCallsAxios, summaryAttributes]
  · have hlen : ((((b.calls.length : Int) - 1)) + 1).toNat = b.calls.length := by omega
    have h1 := saveExternalCalls_found b.calls tx s b hc hfind
    have hfind2 : storeFind (saveExternalCalls b.calls (some tx) s).store tx
        = some { b with lastSavedIndex := (b.calls.length : Int) - 1 } := by
      rw [h1]
      show storeFind (storeUpdate s tx _) tx = _
      rw [find_update_self, hfind]
      rfl
    have h2 := saveExternalCalls_found b.calls tx _ _ hc hfind2
    have h1x := saveExternalCallsAxios_found b.calls tx s b hc hfind
    have hfind2x : storeFind (saveExternalCallsAxios b.calls (some tx) s).2 tx
        = some { b with lastSavedIndex := (b.calls.length : Int) - 1 } := by
      rw [h1x]
      show storeFind (storeUpdate s tx _) tx = _
      rw [find_update_self, hfind]
      rfl
    have h2x := saveExternalCallsAxios_found b.calls tx _ _ hc hfind2x
    refine ⟨?_, ?_, fun _ => ?_, rfl, ?_, ?_⟩
    · rw [h2]
      simp only [hlen, List.drop_length]
      rfl
    · rw [h2, h1]
      show storeUpdate (storeUpdate s tx _) tx _ = storeUpdate s tx _
      rw [update_update_same]
    · rw [h2]
    · rw [h2x]
      simp only [hlen, List.drop_length]
      rfl
    · rw [h2x, h1x]
      show storeUpdate (storeUpdate s tx _) tx _ = storeUpdate s tx _
      rw [update_update_same]

/-- Witness for C7's amended statement: double flush of a one-record
bucket. -/
theorem c7_witness :
    (saveExternalCalls (TransactionCallData.mk [sampleFail] 4 (-1)).calls (some "w")
        (saveExternalCalls (TransactionCallData.mk [sampleFail] 4 (-1)).calls (some "w")
          [("w", TransactionCallData.mk [sampleFail] 4 (-1))]).store).perCall = []
    ∧ (saveExternalCalls (TransactionCallData.mk [sampleFail] 4 (-1)).calls (some "w")
        (saveExternalCalls (TransactionCallData.mk [sampleFail] 4 (-1)).calls (some "w")
          [("w", TransactionCallData.mk [sampleFail] 4 (-1))]).store).store
        = (saveExternalCalls (TransactionCallData.mk [sampleFail] 4 (-1)).calls (some "w")
            [("w", TransactionCallData.mk [sampleFail] 4 (-1))]).store
    ∧ ((TransactionCallData.mk [sampleFail] 4 (-1)).calls ≠ [] →
        (saveExternalCalls (TransactionCallData.mk [sampleFail] 4 (-1)).calls (some "w")
          (saveExternalCalls (TransactionCallData.mk [sampleFail] 4 (-1)).calls (some "w")
            [("w", TransactionCallData.mk [sampleFail] 4 (-1))]).store).summary
          = some (summaryAttributes (TransactionCallData.mk [sampleFail] 4 (-1)).calls))
    ∧ (summaryAttributes (TransactionCallData.mk [sampleFail] 4 (-1)).calls).map Prod.fst
        = ["external.callCount", "external.totalDuration.ms", "external.failedCount"]
    ∧ (saveExternalCallsAxios (TransactionCallData.mk [sampleFail] 4 (-1)).calls (some "w")
        (saveExternalCallsAxios (TransactionCallData.mk [sampleFail] 4 (-1)).calls (some "w")
          [("w", TransactionCallData.mk [sampleFail] 4 (-1))]).2).1 = []
    ∧ (saveExternalCallsAxios (TransactionCallData.mk [sampleFail] 4 (-1)).calls (some "w")
        (saveExternalCallsAxios (TransactionCallData.mk [sampleFail] 4 (-1)).calls (some "w")
          [("w", TransactionCallData.mk [sampleFail] 4 (-1))]).2).2
        = (saveExternalCallsAxios (TransactionCallData.mk [sampleFail] 4 (-1)).calls (some "w")
            [("w", TransactionCallData.mk [sampleFail] 4 (-1))]).2 :=
  c7_amended_second_flush_no_per_record_groups
    [("w", TransactionCallData.mk [sampleFail] 4 (-1))] "w"
    (TransactionCallData.mk [sampleFail] 4 (-1)) (by decide)

/-- C8: one eviction tick at time now deletes exactly the buckets whose
inactivity exceeds the five-minute TTL: a bucket with
now - lastAccess > TTL is gone afterwards, and one with
now - lastAccess ≤ TTL is still present, unchanged. -/
theorem c8_eviction_respects_ttl (now : Nat) (s : Store) (tx : String)
    (b : TransactionCallData)
    (hnd : (s.map Prod.fst).Nodup) (hfind : storeFind s tx = some b) :
    (ttlMillis < now - b.lastAccess → storeFind (cleanupTick now s) tx = none)
    ∧ (now - b.lastAccess ≤ ttlMillis → storeFind (cleanupTick now s) tx = some b) := by
  constructor
  · intro hstale
    apply find_filter_dropped s tx b _ hnd hfind
    have hlt : b.lastAccess < now - ttlMillis := by omega
    simp [hlt]
  · intro hfresh
    apply find_filter_kept s tx b _ hfind
    have hge : ¬ (b.lastAccess < now - ttlMillis) := by omega
    simp [hge]

/-- Witness for C8: a two-bucket store swept at time 1000000; the bucket
idle since 0 is evicted, the one touched at 999999 survives. -/
theorem c8_witness :
    storeFind (cleanupTick 1000000
        [("a", TransactionCallData.mk [] 0 (-1)), ("b", TransactionCallData.mk [] 999999 (-1))])
        "a" = none
    ∧ storeFind (cleanupTick 1000000
        [("a", TransactionCallData.mk [] 0 (-1)), ("b", TransactionCallData.mk [] 999999 (-1))])
        "b" = some (TransactionCallData.mk [] 999999 (-1)) :=
  ⟨(c8_eviction_respects_ttl 1000000
      [("a", TransactionCallData.mk [] 0 (-1)), ("b", TransactionCallData.mk [] 999999 (-1))]
      "a" (TransactionCallData.mk [] 0 (-1)) (by decide) (by decide)).1 (by decide),
   (c8_eviction_respects_ttl 1000000
      [("a", TransactionCallData.mk [] 0 (-1)), ("b", TransactionCallData.mk [] 999999 (-1))]
      "b" (TransactionCallData.mk [] 999999 (-1)) (by decide) (by decide)).2 (by decide)⟩

/-- C10: scrub at its default configuration computes exactly the
transformation the claim describes — at every nesting depth the value of
any key whose lowercased name contains one of the redact substrings
becomes "[REDACTED]", any other string longer than 400 characters is
truncated to its first 400 characters plus an ellipsis, and everything
else is unchanged (claimScrubValue, written from the claim's words); the
input itself is untouched, scrub returning a fresh value. -/
theorem c10_scrub_matches_claim_description (fields : List (String × Json)) :
    scrub (Json.obj fields) = claimScrubValue (Json.obj fields) := by
  rw [show scrub (Json.obj fields) = Json.obj (scrubFields fields) by simp [scrub]]
  rw [show claimScrubValue (Json.obj fields) = Json.obj (claimScrubFields fields) by
        simp [claimScrubValue]]
  rw [scrubFieldsEq fields]
